import Mathlib

/-!
Verification of the PennyWhales ownership-reconciliation and ranking scripts
(scanner_pro.py, scanner_pro_enhanced.py, u2.py, u2_dual.py).

Holder names are modelled as lists of ASCII code points (Python strings are
processed with str.upper() / str.lower() and the `in` substring test, which
on this data is pure ASCII).  Prices and percentages are modelled as
rationals; Python floats on the values appearing here behave as exact
decimal fractions for the comparisons the scripts perform.  A numeric field
whose parse would raise (float(...) on a malformed string) is modelled as
Option.none.  Functions returning None in Python are modelled with Option.
-/

namespace PennyWhales

/-- ASCII lower-casing of one code point, modelling Python str.lower(). -/
def charLowerN (n : Nat) : Nat := if 65 ≤ n ∧ n ≤ 90 then n + 32 else n

/-- ASCII upper-casing of one code point, modelling Python str.upper(). -/
def charUpperN (n : Nat) : Nat := if 97 ≤ n ∧ n ≤ 122 then n - 32 else n

/-- Python str.lower() over a whole name. -/
def pyLower (s : List Nat) : List Nat := s.map charLowerN

/-- Python str.upper() over a whole name. -/
def pyUpper (s : List Nat) : List Nat := s.map charUpperN

/-- Code points of a Lean string literal, used to write concrete names. -/
def strCodes (s : String) : List Nat := s.data.map Char.toNat

/-- Does the haystack begin with the needle? (helper for substring test) -/
def codesStartWith : List Nat → List Nat → Bool
  | [], _ => true
  | _ :: _, [] => false
  | n :: ns, h :: hs => (n == h) && codesStartWith ns hs

/-- Python's substring test needle in hay. -/
def codesContain (needle : List Nat) : List Nat → Bool
  | [] => needle.isEmpty
  | h :: t => codesStartWith needle (h :: t) || codesContain needle t

/-- Holder categories tracked by the engine. -/
inductive HolderCategory
  | BLACKROCK
  | VANGUARD
  | OTHER
deriving DecidableEq, Repr

/-- Classification of an owner name in scanner_pro.py and
scanner_pro_enhanced.py parse_nasdaq_holdings: the name is upper-cased and
tested for the substrings BLACKROCK or BLACK ROCK, then (elif) VANGUARD. -/
def classify_scanner_pro (ownerName : List Nat) : HolderCategory :=
  let u := pyUpper ownerName
  if codesContain (strCodes "BLACKROCK") u = true ∨ codesContain (strCodes "BLACK ROCK") u = true then
    HolderCategory.BLACKROCK
  else if codesContain (strCodes "VANGUARD") u = true then
    HolderCategory.VANGUARD
  else
    HolderCategory.OTHER

/-- Classification of a holder name in u2.py parse_institutional_holdings and
in the u2_dual.py parsers: the name is lower-cased and tested for the
substring blackrock, then (elif) vanguard.  There is no blank-separated
BLACK ROCK marker in these variants. -/
def classify_u2 (holderName : List Nat) : HolderCategory :=
  let l := pyLower holderName
  if codesContain (strCodes "blackrock") l = true then
    HolderCategory.BLACKROCK
  else if codesContain (strCodes "vanguard") l = true then
    HolderCategory.VANGUARD
  else
    HolderCategory.OTHER

/-- One row of a Nasdaq holdings table: the owner name and the parse result
of the sharesHeld field (none when float(...) would raise). -/
structure NasdaqRow where
  ownerName : List Nat
  sharesHeld : Option ℚ
deriving Repr

/-- Percentage a row represents in scanner_pro.py parse_nasdaq_holdings:
(shares_held / total_shares) * 100 when total_shares > 0, else 0. -/
def rowPctPro (total_shares sh : ℚ) : ℚ :=
  if 0 < total_shares then sh / total_shares * 100 else 0

/-- Accumulating loop of scanner_pro.py parse_nasdaq_holdings.  A row whose
sharesHeld fails to parse is skipped (the inner try/except does continue);
otherwise the row updates the per-category running maximum chosen by the
if/elif chain on the upper-cased owner name. -/
def parse_nasdaq_holdings_pro_aux (total_shares : ℚ) :
    List NasdaqRow → ℚ → ℚ → ℚ × ℚ
  | [], br, vg => (br, vg)
  | r :: rs, br, vg =>
    match r.sharesHeld with
    | none => parse_nasdaq_holdings_pro_aux total_shares rs br vg
    | some sh =>
      let pct := rowPctPro total_shares sh
      match classify_scanner_pro r.ownerName with
      | HolderCategory.BLACKROCK => parse_nasdaq_holdings_pro_aux total_shares rs (max br pct) vg
      | HolderCategory.VANGUARD => parse_nasdaq_holdings_pro_aux total_shares rs br (max vg pct)
      | HolderCategory.OTHER => parse_nasdaq_holdings_pro_aux total_shares rs br vg

/-- scanner_pro.py parse_nasdaq_holdings: BlackRock and Vanguard percentages
(0-100 scale) extracted from one Nasdaq table. -/
def parse_nasdaq_holdings_pro (total_shares : ℚ) (rows : List NasdaqRow) : ℚ × ℚ :=
  parse_nasdaq_holdings_pro_aux total_shares rows 0 0

/-- Accumulating loop of u2_dual.py parse_nasdaq_holdings.  There is no inner
try/except: a row whose sharesHeld fails to parse raises, the outer except
catches it, and the whole call returns (0, 0) regardless of rows already
processed.  Percentages are on the 0-1 (decimal) scale, and a branch only
fires when the row strictly improves the current category maximum. -/
def parse_nasdaq_holdings_dual_aux (total_shares : ℚ) :
    List NasdaqRow → ℚ → ℚ → ℚ × ℚ
  | [], br, vg => (br, vg)
  | r :: rs, br, vg =>
    match r.sharesHeld with
    | none => (0, 0)
    | some sh =>
      let percentage := if 0 < total_shares then sh / total_shares else 0
      let l := pyLower r.ownerName
      if codesContain (strCodes "blackrock") l = true ∧ br < percentage then
        parse_nasdaq_holdings_dual_aux total_shares rs percentage vg
      else if codesContain (strCodes "vanguard") l = true ∧ vg < percentage then
        parse_nasdaq_holdings_dual_aux total_shares rs br percentage
      else
        parse_nasdaq_holdings_dual_aux total_shares rs br vg

/-- u2_dual.py parse_nasdaq_holdings: total_shares is none when parsing the
ShareoutstandingTotal string raises, in which case the outer except also
returns (0, 0). -/
def parse_nasdaq_holdings_dual (total_shares : Option ℚ) (rows : List NasdaqRow) : ℚ × ℚ :=
  match total_shares with
  | none => (0, 0)
  | some t => parse_nasdaq_holdings_dual_aux t rows 0 0

/-- One row of a Yahoo institutional-holders table in u2.py: holder name and
the percentage already converted to the 0-1 (decimal) scale. -/
structure YahooRow where
  holder : List Nat
  pct : ℚ
deriving Repr

/-- Accumulating loop of u2.py parse_institutional_holdings.  The blackrock
branch requires both the marker and a strict improvement of the running
BlackRock maximum; only when that conjunction fails is the vanguard branch
tested. -/
def parse_institutional_holdings_aux : List YahooRow → ℚ → ℚ → ℚ × ℚ
  | [], br, vg => (br, vg)
  | r :: rs, br, vg =>
    let l := pyLower r.holder
    if codesContain (strCodes "blackrock") l = true ∧ br < r.pct then
      parse_institutional_holdings_aux rs r.pct vg
    else if codesContain (strCodes "vanguard") l = true ∧ vg < r.pct then
      parse_institutional_holdings_aux rs br r.pct
    else
      parse_institutional_holdings_aux rs br vg

/-- u2.py parse_institutional_holdings: (blackrock_pct, vanguard_pct). -/
def parse_institutional_holdings (rows : List YahooRow) : ℚ × ℚ :=
  parse_institutional_holdings_aux rows 0 0

/-- Data-quality levels reported by u2_dual.py compare_data_sources. -/
inductive DataQuality
  | high
  | medium
  | low
deriving DecidableEq, Repr

/-- Result record of u2_dual.py compare_data_sources. -/
structure SourceComparison where
  has_discrepancy : Bool
  blackrock_diff : ℚ
  vanguard_diff : ℚ
  data_quality : DataQuality
deriving Repr

/-- u2_dual.py compare_data_sources.  Inputs are the per-source decimal
percentages; diffs are reported in percentage points (the *100).  A diff is
only computed when both sources report strictly positive values; quality is
medium on any diff above 1 point, high when both sources report non-zero for
some category, low otherwise. -/
def compare_data_sources (yahoo_br yahoo_vg nasdaq_br nasdaq_vg : ℚ) : SourceComparison :=
  let blackrock_diff := if 0 < yahoo_br ∧ 0 < nasdaq_br then |yahoo_br - nasdaq_br| * 100 else 0
  let vanguard_diff := if 0 < yahoo_vg ∧ 0 < nasdaq_vg then |yahoo_vg - nasdaq_vg| * 100 else 0
  let has_discrepancy : Bool := decide (1 < blackrock_diff) || decide (1 < vanguard_diff)
  let data_quality :=
    if has_discrepancy = true then DataQuality.medium
    else if (0 < yahoo_br ∨ 0 < yahoo_vg) ∧ (0 < nasdaq_br ∨ 0 < nasdaq_vg) then DataQuality.high
    else DataQuality.low
  ⟨has_discrepancy, blackrock_diff, vanguard_diff, data_quality⟩

/-- Quality actually stored by u2_dual.py process_ticker: the comparison
result when show_details is true, the constant medium otherwise. -/
def process_ticker_quality (show_details : Bool) (compared : DataQuality) : DataQuality :=
  if show_details then compared else DataQuality.medium

/-- u2_dual.py process_ticker reconciles one category across the two sources
by taking the maximum reported value. -/
def process_final_pct (yahoo nasdaq : ℚ) : ℚ := max yahoo nasdaq

/-- Price gate of scanner_pro.py / scanner_pro_enhanced.py analyze_ticker:
the ticker is rejected when currentPrice is missing or price >= 2.0. -/
def price_gate_fails_pro : Option ℚ → Bool
  | none => true
  | some p => decide (2 ≤ p)

/-- Price gate of u2.py / u2_dual.py process_ticker: the ticker is rejected
when the price is falsy (absent or zero) or price > 2.0 strictly. -/
def price_gate_fails_u2 : Option ℚ → Bool
  | none => true
  | some p => decide (p = 0) || decide (2 < p)

/-- Holding-threshold eligibility shared by all variants: with
REQUIRE_BOTH_HOLDERS both categories must reach the threshold, otherwise one
suffices.  The threshold and percentages must be on the same scale. -/
def meets_criteria (require_both : Bool) (hold_threshold final_br final_vg : ℚ) : Bool :=
  if require_both then decide (hold_threshold ≤ final_br) && decide (hold_threshold ≤ final_vg)
  else decide (hold_threshold ≤ final_br) || decide (hold_threshold ≤ final_vg)

/-- A qualifying security as consumed by calculate_ranking_score: ticker,
price and reconciled percentages on the 0-100 scale. -/
structure Stock where
  ticker : List Nat
  price : ℚ
  blackrock_pct : ℚ
  vanguard_pct : ℚ
deriving Repr

/-- The rank_score value of scanner_pro.py calculate_ranking_score: a pair
(negated combined holdings, price) for tier 1, a bare price for tiers 2-3,
mirroring the heterogeneous Python value. -/
inductive RankScore
  | pair (negCombined price : ℚ)
  | single (price : ℚ)
deriving DecidableEq, Repr

/-- scanner_pro.py / scanner_pro_enhanced.py calculate_ranking_score: the
category (tier) together with the tier-local sort score. -/
def calculate_ranking_score (stock : Stock) : Nat × RankScore :=
  let br_pct := stock.blackrock_pct
  let vg_pct := stock.vanguard_pct
  let price := stock.price
  if (0 < br_pct ∧ 0 < vg_pct) ∧ 4 ≤ br_pct ∧ 4 ≤ vg_pct then
    (1, RankScore.pair (-(br_pct + vg_pct)) price)
  else if (3 ≤ br_pct ∧ 0 < vg_pct) ∨ (3 ≤ vg_pct ∧ 0 < br_pct) then
    (2, RankScore.single price)
  else
    (3, RankScore.single price)

/-- Python comparison of two rank_score values of the same shape: pairs are
compared lexicographically, bare prices numerically.  Mixed shapes are never
compared by the program (Python would raise a TypeError); the value returned
for them here is immaterial. -/
def scoreLe : RankScore → RankScore → Bool
  | RankScore.pair n1 p1, RankScore.pair n2 p2 =>
      decide (n1 < n2) || (decide (n1 = n2) && decide (p1 ≤ p2))
  | RankScore.single p1, RankScore.single p2 => decide (p1 ≤ p2)
  | _, _ => false

/-- Python comparison of the composite sort key (rank_category, rank_score):
the category decides first and the score is consulted only on equal
categories, exactly as tuple comparison short-circuits. -/
def keyLe (k1 k2 : Nat × RankScore) : Bool :=
  decide (k1.1 < k2.1) || (decide (k1.1 = k2.1) && scoreLe k1.2 k2.2)

/-- Order on stocks induced by their composite sort keys, as used by
qualifying_stocks.sort(key=...) in display_results. -/
def stockLe (a b : Stock) : Prop :=
  keyLe (calculate_ranking_score a) (calculate_ranking_score b) = true

instance : DecidableRel stockLe :=
  fun a b =>
    inferInstanceAs (Decidable (keyLe (calculate_ranking_score a) (calculate_ranking_score b) = true))

/-- The sorted sequence produced by display_results (and
save_results_to_json): a stable sort of the qualifying stocks by the
composite key. -/
def display_results_sort (stocks : List Stock) : List Stock :=
  List.insertionSort stockLe stocks

/-- Do two rank_score values have the same shape (both pairs or both bare
prices)?  Python can only compare same-shape values. -/
def sameShape : RankScore → RankScore → Prop
  | RankScore.pair _ _, RankScore.pair _ _ => True
  | RankScore.single _, RankScore.single _ => True
  | _, _ => False

/-- scanner_pro_enhanced.py main: the requested tickers not yet processed. -/
def new_tickers (tickers : List String) (processed : Finset String) : List String :=
  tickers.filter fun t => !(decide (t ∈ processed))

/-- scanner_pro_enhanced.py main: the run is incremental when some stocks
were processed before and at least one requested ticker is among them. -/
def new_stocks_only (tickers : List String) (processed : Finset String) : Bool :=
  decide (0 < processed.card) && decide ((new_tickers tickers processed).length < tickers.length)

/-- scanner_pro_enhanced.py main: the tickers actually scanned this run. -/
def tickers_to_scan (tickers : List String) (processed : Finset String) : List String :=
  if new_stocks_only tickers processed then new_tickers tickers processed else tickers

/-- scanner_pro_enhanced.py main: processed_stocks | set(tickers_to_scan),
the state saved after the run. -/
def all_processed_tickers (tickers : List String) (processed : Finset String) : Finset String :=
  processed ∪ (tickers_to_scan tickers processed).toFinset

/-- Spec-side view of one Nasdaq table: the percentages of the rows that
parse and classify into the given category, in table order. -/
def categoryPcts (total_shares : ℚ) (cat : HolderCategory) (rows : List NasdaqRow) : List ℚ :=
  rows.filterMap fun r =>
    match r.sharesHeld with
    | none => none
    | some sh =>
      if classify_scanner_pro r.ownerName = cat then some (rowPctPro total_shares sh) else none

/-- Maximum of a list of percentages, 0 when the list is empty. -/
def maxOrZero (l : List ℚ) : ℚ := l.foldr max 0

/-! Helper lemmas -/

theorem charUpper_charLower (n : Nat) : charUpperN (charLowerN n) = charUpperN n := by
  unfold charUpperN charLowerN
  split_ifs <;> omega

theorem charLower_charUpper (n : Nat) : charLowerN (charUpperN n) = charLowerN n := by
  unfold charUpperN charLowerN
  split_ifs <;> omega

theorem charUpper_idem (n : Nat) : charUpperN (charUpperN n) = charUpperN n := by
  unfold charUpperN
  split_ifs <;> omega

theorem charLower_idem (n : Nat) : charLowerN (charLowerN n) = charLowerN n := by
  unfold charLowerN
  split_ifs <;> omega

theorem map_comp_pointwise {f g h : Nat → Nat} (hfg : ∀ n, f (g n) = h n) :
    ∀ l : List Nat, (l.map g).map f = l.map h := by
  intro l
  induction l with
  | nil => rfl
  | cons a t ih => simp [hfg, ih]

theorem pyUpper_pyLower (s : List Nat) : pyUpper (pyLower s) = pyUpper s :=
  map_comp_pointwise charUpper_charLower s

theorem pyLower_pyUpper (s : List Nat) : pyLower (pyUpper s) = pyLower s :=
  map_comp_pointwise charLower_charUpper s

theorem pyUpper_idem (s : List Nat) : pyUpper (pyUpper s) = pyUpper s :=
  map_comp_pointwise charUpper_idem s

theorem pyLower_idem (s : List Nat) : pyLower (pyLower s) = pyLower s :=
  map_comp_pointwise charLower_idem s

theorem classify_scanner_pro_blackrock_iff (name : List Nat) :
    classify_scanner_pro name = HolderCategory.BLACKROCK ↔
      (codesContain (strCodes "BLACKROCK") (pyUpper name) = true
        ∨ codesContain (strCodes "BLACK ROCK") (pyUpper name) = true) := by
  simp only [classify_scanner_pro]
  split_ifs <;> simp_all

theorem classify_u2_blackrock_iff (name : List Nat) :
    classify_u2 name = HolderCategory.BLACKROCK ↔
      codesContain (strCodes "blackrock") (pyLower name) = true := by
  simp only [classify_u2]
  split_ifs <;> simp_all

theorem foldr_max_acc (l : List ℚ) (a b : ℚ) :
    l.foldr max (max a b) = max a (l.foldr max b) := by
  induction l with
  | nil => rfl
  | cons c t ih => simp only [List.foldr_cons, ih, max_left_comm]

theorem categoryPcts_cons_none (total_shares : ℚ) (cat : HolderCategory)
    {r : NasdaqRow} (rs : List NasdaqRow) (hsh : r.sharesHeld = none) :
    categoryPcts total_shares cat (r :: rs) = categoryPcts total_shares cat rs := by
  simp only [categoryPcts, List.filterMap_cons, hsh]

theorem categoryPcts_cons_some (total_shares : ℚ) (cat : HolderCategory)
    {r : NasdaqRow} (rs : List NasdaqRow) {sh : ℚ} (hsh : r.sharesHeld = some sh) :
    categoryPcts total_shares cat (r :: rs)
      = if classify_scanner_pro r.ownerName = cat
          then rowPctPro total_shares sh :: categoryPcts total_shares cat rs
          else categoryPcts total_shares cat rs := by
  simp only [categoryPcts, List.filterMap_cons, hsh]
  split_ifs <;> rfl

theorem parse_pro_aux_eq (total_shares : ℚ) :
    ∀ (rows : List NasdaqRow) (br vg : ℚ),
      parse_nasdaq_holdings_pro_aux total_shares rows br vg
        = ((categoryPcts total_shares HolderCategory.BLACKROCK rows).foldr max br,
           (categoryPcts total_shares HolderCategory.VANGUARD rows).foldr max vg) := by
  intro rows
  induction rows with
  | nil => intro br vg; rfl
  | cons r rs ih =>
    intro br vg
    cases hsh : r.sharesHeld with
    | none =>
      simp only [parse_nasdaq_holdings_pro_aux, hsh,
        categoryPcts_cons_none total_shares _ rs hsh]
      exact ih br vg
    | some sh =>
      cases hc : classify_scanner_pro r.ownerName with
      | BLACKROCK =>
        simp only [parse_nasdaq_holdings_pro_aux, hsh, hc]
        rw [ih (max br (rowPctPro total_shares sh)) vg,
          categoryPcts_cons_some total_shares HolderCategory.BLACKROCK rs hsh,
          categoryPcts_cons_some total_shares HolderCategory.VANGUARD rs hsh,
          hc, if_pos rfl, if_neg (by simp), List.foldr_cons, max_comm br, foldr_max_acc]
      | VANGUARD =>
        simp only [parse_nasdaq_holdings_pro_aux, hsh, hc]
        rw [ih br (max vg (rowPctPro total_shares sh)),
          categoryPcts_cons_some total_shares HolderCategory.BLACKROCK rs hsh,
          categoryPcts_cons_some total_shares HolderCategory.VANGUARD rs hsh,
          hc, if_pos rfl, if_neg (by simp), List.foldr_cons, max_comm vg, foldr_max_acc]
      | OTHER =>
        simp only [parse_nasdaq_holdings_pro_aux, hsh, hc]
        rw [ih br vg,
          categoryPcts_cons_some total_shares HolderCategory.BLACKROCK rs hsh,
          categoryPcts_cons_some total_shares HolderCategory.VANGUARD rs hsh,
          hc, if_neg (by simp), if_neg (by simp)]

theorem parse_pro_skip_bad_row (total_shares : ℚ) (r : NasdaqRow)
    (hr : r.sharesHeld = none) (post : List NasdaqRow) :
    ∀ (pre : List NasdaqRow) (br vg : ℚ),
      parse_nasdaq_holdings_pro_aux total_shares (pre ++ r :: post) br vg
        = parse_nasdaq_holdings_pro_aux total_shares (pre ++ post) br vg := by
  intro pre
  induction pre with
  | nil =>
    intro br vg
    simp only [List.nil_append, parse_nasdaq_holdings_pro_aux, hr]
  | cons p ps ih =>
    intro br vg
    cases hp : p.sharesHeld with
    | none => simp only [List.cons_append, parse_nasdaq_holdings_pro_aux, hp]; exact ih br vg
    | some sh =>
      cases hc : classify_scanner_pro p.ownerName <;>
        (simp only [List.cons_append, parse_nasdaq_holdings_pro_aux, hp, hc]; apply ih)

theorem parse_pro_aux_snd_ignores_br (total_shares : ℚ) :
    ∀ (rows : List NasdaqRow) (br brAlt vg : ℚ),
      (parse_nasdaq_holdings_pro_aux total_shares rows br vg).2
        = (parse_nasdaq_holdings_pro_aux total_shares rows brAlt vg).2 := by
  intro rows
  induction rows with
  | nil => intro br brAlt vg; rfl
  | cons r rs ih =>
    intro br brAlt vg
    cases hp : r.sharesHeld with
    | none => simp only [parse_nasdaq_holdings_pro_aux, hp]; exact ih br brAlt vg
    | some sh =>
      cases hc : classify_scanner_pro r.ownerName <;>
          simp only [parse_nasdaq_holdings_pro_aux, hp, hc] <;> apply ih

theorem parse_dual_aux_bad_row (total_shares : ℚ) :
    ∀ (rows : List NasdaqRow) (br vg : ℚ),
      (∃ b ∈ rows, b.sharesHeld = none) →
        parse_nasdaq_holdings_dual_aux total_shares rows br vg = (0, 0) := by
  intro rows
  induction rows with
  | nil => intro br vg h; exact absurd h (by simp)
  | cons r rs ih =>
    intro br vg h
    cases hp : r.sharesHeld with
    | none => simp only [parse_nasdaq_holdings_dual_aux, hp]
    | some sh =>
      have hrs : ∃ b ∈ rs, b.sharesHeld = none := by
        rcases h with ⟨b, hb, hbn⟩
        rcases List.mem_cons.mp hb with rfl | hbr
        · exact absurd hp (by rw [hbn]; simp)
        · exact ⟨b, hbr, hbn⟩
      simp only [parse_nasdaq_holdings_dual_aux, hp]
      split_ifs <;> exact ih _ _ hrs

/-! Theorems -/

/-- C1: for ticker BBB at price 1.50 with BLACKROCK reported as 3.2% by one
source and 5.1% by the other (decimals 0.032 and 0.051 on the u2_dual
scale) and VANGUARD 0 everywhere: the price gate passes, the reconciled
BLACKROCK figure is the maximum 0.051, the discrepancy magnitude is 1.9
percentage points with quality MEDIUM, the security passes require-any
eligibility at threshold 0.04, and calculate_ranking_score assigns Tier 3,
not Tier 2 (the other category is zero). -/
theorem C1_scenario_bbb :
    price_gate_fails_u2 (some (3/2)) = false
    ∧ process_final_pct (32/1000) (51/1000) = 51/1000
    ∧ (compare_data_sources (32/1000) 0 (51/1000) 0).blackrock_diff = 19/10
    ∧ (compare_data_sources (32/1000) 0 (51/1000) 0).data_quality = DataQuality.medium
    ∧ meets_criteria false (4/100) (process_final_pct (32/1000) (51/1000)) 0 = true
    ∧ (calculate_ranking_score ⟨strCodes "BBB", 3/2, 51/10, 0⟩).1 = 3
    ∧ (calculate_ranking_score ⟨strCodes "BBB", 3/2, 51/10, 0⟩).1 ≠ 2 := by
  refine ⟨?_, ?_, ?_, ?_, ?_, ?_, ?_⟩
  · norm_num [price_gate_fails_u2]
  · norm_num [process_final_pct]
  · show (if (0:ℚ) < 32/1000 ∧ (0:ℚ) < 51/1000 then |(32:ℚ)/1000 - 51/1000| * 100 else 0) = 19/10
    rw [if_pos (by norm_num), abs_of_nonpos (by norm_num)]
    norm_num
  · show (if _ then _ else _) = DataQuality.medium
    rw [if_pos]
    simp only [Bool.or_eq_true, decide_eq_true_eq]
    left
    rw [if_pos (by norm_num), abs_of_nonpos (by norm_num)]
    norm_num
  · norm_num [meets_criteria, process_final_pct]
  · norm_num [calculate_ranking_score]
  · norm_num [calculate_ranking_score]

/-- C2 counterexample: a single-source ticker (only Yahoo, reporting a
non-zero 0.05 for BLACKROCK) gets data_quality low from
compare_data_sources, not HIGH as the claim states; and process_ticker with
show_details false records MEDIUM even for that single-source ticker. -/
theorem C2_counterexample :
    (compare_data_sources (1/20) 0 0 0).data_quality = DataQuality.low
    ∧ (compare_data_sources (1/20) 0 0 0).data_quality ≠ DataQuality.high
    ∧ process_ticker_quality false ((compare_data_sources (1/20) 0 0 0).data_quality)
        = DataQuality.medium := by
  have h : (compare_data_sources (1/20) 0 0 0).data_quality = DataQuality.low := by
    show (if _ then _ else if _ then _ else _) = DataQuality.low
    rw [if_neg, if_neg]
    · norm_num
    · simp only [Bool.or_eq_true, decide_eq_true_eq, not_or]
      constructor <;> (rw [if_neg (by norm_num)]; norm_num)
  exact ⟨h, by rw [h]; simp, by rw [h]; rfl⟩

/-- C2 amended: on the show_details path (compare_data_sources), a ticker
with a single reporting source — the other source parsed to all zeros —
never gets MEDIUM quality, but it gets LOW, not HIGH, even when the single
source reports non-zero; and when show_details is false, process_ticker
records MEDIUM unconditionally, bypassing the comparison. -/
theorem C2_amended (yahoo_br yahoo_vg nasdaq_br nasdaq_vg : ℚ)
    (h : (nasdaq_br = 0 ∧ nasdaq_vg = 0) ∨ (yahoo_br = 0 ∧ yahoo_vg = 0)) :
    (compare_data_sources yahoo_br yahoo_vg nasdaq_br nasdaq_vg).data_quality = DataQuality.low
    ∧ (compare_data_sources yahoo_br yahoo_vg nasdaq_br nasdaq_vg).data_quality ≠ DataQuality.medium
    ∧ ∀ q : DataQuality, process_ticker_quality false q = DataQuality.medium := by
  have hlow :
      (compare_data_sources yahoo_br yahoo_vg nasdaq_br nasdaq_vg).data_quality
        = DataQuality.low := by
    show (if _ then _ else if _ then _ else _) = DataQuality.low
    rcases h with ⟨h1, h2⟩ | ⟨h1, h2⟩ <;> subst h1 <;> subst h2 <;>
      · rw [if_neg, if_neg]
        · simp
        · simp only [Bool.or_eq_true, decide_eq_true_eq, not_or]
          constructor <;> (rw [if_neg (by simp)]; norm_num)
  exact ⟨hlow, by rw [hlow]; simp, fun q => rfl⟩

/-- C2 amended witness: the amended statement at the concrete single-source
input yahoo_br = 0.05, yahoo_vg = 0, nasdaq all zero. -/
theorem C2_amended_witness :
    (compare_data_sources (1/20) 0 0 0).data_quality = DataQuality.low
    ∧ (compare_data_sources (1/20) 0 0 0).data_quality ≠ DataQuality.medium
    ∧ ∀ q : DataQuality, process_ticker_quality false q = DataQuality.medium :=
  C2_amended (1/20) 0 0 0 (Or.inl ⟨rfl, rfl⟩)

/-- C4: for non-negative reconciled percentages, calculate_ranking_score
assigns tiers by fixed first-match priority: Tier 1 iff both percentages are
at least 4.0, otherwise Tier 2 iff one is at least 3.0 and the other is
non-zero, otherwise Tier 3. -/
theorem C4_tier_assignment (s : Stock)
    (hbr : 0 ≤ s.blackrock_pct) (hvg : 0 ≤ s.vanguard_pct) :
    (calculate_ranking_score s).1 =
      if 4 ≤ s.blackrock_pct ∧ 4 ≤ s.vanguard_pct then 1
      else if (3 ≤ s.blackrock_pct ∧ s.vanguard_pct ≠ 0)
          ∨ (3 ≤ s.vanguard_pct ∧ s.blackrock_pct ≠ 0) then 2
      else 3 := by
  unfold calculate_ranking_score
  by_cases h1 : 4 ≤ s.blackrock_pct ∧ 4 ≤ s.vanguard_pct
  · rw [if_pos ⟨⟨by linarith [h1.1], by linarith [h1.2]⟩, h1⟩, if_pos h1]
  · have h1c : ¬((0 < s.blackrock_pct ∧ 0 < s.vanguard_pct)
        ∧ 4 ≤ s.blackrock_pct ∧ 4 ≤ s.vanguard_pct) := fun hc => h1 hc.2
    rw [if_neg h1c, if_neg h1]
    by_cases h2 : (3 ≤ s.blackrock_pct ∧ s.vanguard_pct ≠ 0)
        ∨ (3 ≤ s.vanguard_pct ∧ s.blackrock_pct ≠ 0)
    · have h2c : (3 ≤ s.blackrock_pct ∧ 0 < s.vanguard_pct)
          ∨ (3 ≤ s.vanguard_pct ∧ 0 < s.blackrock_pct) := by
        rcases h2 with ⟨ha, hb⟩ | ⟨ha, hb⟩
        · exact Or.inl ⟨ha, lt_of_le_of_ne hvg (Ne.symm hb)⟩
        · exact Or.inr ⟨ha, lt_of_le_of_ne hbr (Ne.symm hb)⟩
      rw [if_pos h2c, if_pos h2]
    · have h2c : ¬((3 ≤ s.blackrock_pct ∧ 0 < s.vanguard_pct)
          ∨ (3 ≤ s.vanguard_pct ∧ 0 < s.blackrock_pct)) := by
        intro hc
        apply h2
        rcases hc with ⟨ha, hb⟩ | ⟨ha, hb⟩
        · exact Or.inl ⟨ha, ne_of_gt hb⟩
        · exact Or.inr ⟨ha, ne_of_gt hb⟩
      rw [if_neg h2c, if_neg h2]

/-- C4 witness: the scenario stock AAA (price 0.75, BLACKROCK 4.5,
VANGUARD 4.2) instantiates the tier-assignment theorem. -/
theorem C4_tier_assignment_witness :
    (calculate_ranking_score ⟨strCodes "AAA", 3/4, 9/2, 21/5⟩).1 =
      if 4 ≤ (Stock.mk (strCodes "AAA") (3/4) (9/2) (21/5)).blackrock_pct
          ∧ 4 ≤ (Stock.mk (strCodes "AAA") (3/4) (9/2) (21/5)).vanguard_pct then 1
      else if (3 ≤ (Stock.mk (strCodes "AAA") (3/4) (9/2) (21/5)).blackrock_pct
            ∧ (Stock.mk (strCodes "AAA") (3/4) (9/2) (21/5)).vanguard_pct ≠ 0)
          ∨ (3 ≤ (Stock.mk (strCodes "AAA") (3/4) (9/2) (21/5)).vanguard_pct
            ∧ (Stock.mk (strCodes "AAA") (3/4) (9/2) (21/5)).blackrock_pct ≠ 0) then 2
      else 3 :=
  C4_tier_assignment ⟨strCodes "AAA", 3/4, 9/2, 21/5⟩ (by norm_num) (by norm_num)

/-- C5 counterexample: in u2.py / u2_dual.py the price gate does not fail at
a price equal to the 2.00 ceiling (the test is strict), and it does fail at
the price 0, which is strictly below the ceiling — both contradicting the
claim that the filter fails exactly on absent prices and prices at or above
the ceiling. -/
theorem C5_counterexample :
    price_gate_fails_u2 (some 2) = false ∧ price_gate_fails_u2 (some 0) = true := by
  constructor <;> norm_num [price_gate_fails_u2]

/-- C5 amended: the eligibility filter always fails on an absent price and
exclusion is a returned non-result, not an exception (failure is a value of
the gate).  For a present price, scanner_pro and scanner_pro_enhanced fail
iff price is at least the 2.00 ceiling, while u2 and u2_dual fail iff the
price is zero (falsy) or strictly above the ceiling — there a price equal
to the ceiling passes and a zero price fails. -/
theorem C5_amended (p : ℚ) :
    price_gate_fails_pro none = true
    ∧ price_gate_fails_u2 none = true
    ∧ (price_gate_fails_pro (some p) = true ↔ 2 ≤ p)
    ∧ (price_gate_fails_u2 (some p) = true ↔ (p = 0 ∨ 2 < p)) := by
  refine ⟨rfl, rfl, ?_, ?_⟩
  · simp [price_gate_fails_pro]
  · simp [price_gate_fails_u2]

/-- C6 counterexample: in u2_dual.py parse_nasdaq_holdings a row whose
sharesHeld fails to parse aborts the whole table.  With total shares 100, a
table holding a good BlackRock row (50 shares, i.e. 0.5) followed by a
malformed row yields (0, 0), while the same table without the malformed row
yields (1/2, 0): the good row's contribution is lost, contradicting the
claim that other rows of the table still contribute. -/
theorem C6_counterexample :
    parse_nasdaq_holdings_dual (some 100)
        [⟨strCodes "BlackRock Inc", some 50⟩, ⟨strCodes "Mystery Corp", none⟩] = (0, 0)
    ∧ parse_nasdaq_holdings_dual (some 100) [⟨strCodes "BlackRock Inc", some 50⟩] = (1/2, 0) := by
  constructor
  · show parse_nasdaq_holdings_dual_aux 100 _ 0 0 = (0, 0)
    simp only [parse_nasdaq_holdings_dual_aux]
    split_ifs <;> rfl
  · show parse_nasdaq_holdings_dual_aux 100 _ 0 0 = (1/2, 0)
    simp only [parse_nasdaq_holdings_dual_aux]
    split_ifs with hp hbr hvg hbr2 hvg2 <;>
      first
        | (norm_num [Prod.ext_iff]; done)
        | exact absurd ⟨by decide, by norm_num⟩ hbr
        | exact absurd (by norm_num : (0:ℚ) < 100) hp

/-- C6 amended: in scanner_pro.py parse_nasdaq_holdings a row whose numeric
field fails to parse is dropped and the rest of the table still contributes
(removing the malformed row does not change the result); in u2_dual.py
parse_nasdaq_holdings, however, any malformed row aborts the whole table,
which returns (0, 0) for both categories. -/
theorem C6_malformed_row (total_shares : ℚ) (pre post : List NasdaqRow)
    (r : NasdaqRow) (hr : r.sharesHeld = none) :
    parse_nasdaq_holdings_pro total_shares (pre ++ r :: post)
      = parse_nasdaq_holdings_pro total_shares (pre ++ post)
    ∧ ∀ (t : Option ℚ) (rows : List NasdaqRow),
        (∃ b ∈ rows, b.sharesHeld = none) → parse_nasdaq_holdings_dual t rows = (0, 0) := by
  constructor
  · exact parse_pro_skip_bad_row total_shares r hr post pre 0 0
  · intro t rows hbad
    cases t with
    | none => rfl
    | some tv => exact parse_dual_aux_bad_row tv rows 0 0 hbad

/-- C6 witness: the amended statement at a concrete table — a good
BlackRock row around a malformed row, with total shares 100. -/
theorem C6_malformed_row_witness :
    parse_nasdaq_holdings_pro 100
        ([⟨strCodes "BlackRock Inc", some 50⟩] ++ ⟨strCodes "Mystery Corp", none⟩ ::
          [⟨strCodes "Vanguard Group", some 25⟩])
      = parse_nasdaq_holdings_pro 100
          ([⟨strCodes "BlackRock Inc", some 50⟩] ++ [⟨strCodes "Vanguard Group", some 25⟩])
    ∧ ∀ (t : Option ℚ) (rows : List NasdaqRow),
        (∃ b ∈ rows, b.sharesHeld = none) → parse_nasdaq_holdings_dual t rows = (0, 0) :=
  C6_malformed_row 100 [⟨strCodes "BlackRock Inc", some 50⟩]
    [⟨strCodes "Vanguard Group", some 25⟩] ⟨strCodes "Mystery Corp", none⟩ rfl

/-- C8 counterexample: u2.py classifies only on the marker blackrock, so the
holder name BLACK ROCK FUND — which the claim says must be BLACKROCK — is
classified OTHER there. -/
theorem C8_counterexample :
    classify_u2 (strCodes "BLACK ROCK FUND") = HolderCategory.OTHER
    ∧ classify_u2 (strCodes "BLACK ROCK FUND") ≠ HolderCategory.BLACKROCK := by
  constructor <;> decide

/-- C8 amended: classification is total (each row gets exactly one of the
three categories) and case-insensitive in both classifier variants, and the
per-category maximum over a source's rows is kept by scanner_pro's parser;
but only scanner_pro/scanner_pro_enhanced recognise both BLACKROCK and
BLACK ROCK markers — u2/u2_dual classify BLACKROCK exactly when the
lower-cased name contains blackrock, so a name with only the spaced marker
falls to OTHER there. -/
theorem C8_classification (name : List Nat) (total_shares : ℚ) (rows : List NasdaqRow) :
    (classify_scanner_pro name = HolderCategory.BLACKROCK
      ∨ classify_scanner_pro name = HolderCategory.VANGUARD
      ∨ classify_scanner_pro name = HolderCategory.OTHER)
    ∧ classify_scanner_pro (pyUpper name) = classify_scanner_pro name
    ∧ classify_scanner_pro (pyLower name) = classify_scanner_pro name
    ∧ classify_u2 (pyUpper name) = classify_u2 name
    ∧ classify_u2 (pyLower name) = classify_u2 name
    ∧ (classify_scanner_pro name = HolderCategory.BLACKROCK ↔
        (codesContain (strCodes "BLACKROCK") (pyUpper name) = true
          ∨ codesContain (strCodes "BLACK ROCK") (pyUpper name) = true))
    ∧ (classify_u2 name = HolderCategory.BLACKROCK ↔
        codesContain (strCodes "blackrock") (pyLower name) = true)
    ∧ parse_nasdaq_holdings_pro total_shares rows
        = (maxOrZero (categoryPcts total_shares HolderCategory.BLACKROCK rows),
           maxOrZero (categoryPcts total_shares HolderCategory.VANGUARD rows)) := by
  refine ⟨?_, ?_, ?_, ?_, ?_, classify_scanner_pro_blackrock_iff name,
    classify_u2_blackrock_iff name, parse_pro_aux_eq total_shares rows 0 0⟩
  · simp only [classify_scanner_pro]
    split_ifs <;> simp
  · simp only [classify_scanner_pro, pyUpper_idem]
  · simp only [classify_scanner_pro, pyUpper_pyLower]
  · simp only [classify_u2, pyLower_pyUpper]
  · simp only [classify_u2, pyLower_idem]

/-- C9 counterexample: in u2.py, after a BlackRock row with 0.05 has set the
running BlackRock maximum, the dual-marker row BlackRock Vanguard Fund with
0.03 fails the BlackRock branch (no strict improvement) and falls into the
Vanguard branch, raising the VANGUARD figure to 0.03 — the claim says such
a row contributes only to BLACKROCK, which would leave VANGUARD at 0. -/
theorem C9_counterexample :
    parse_institutional_holdings
        [⟨strCodes "BlackRock Advisors", 1/20⟩, ⟨strCodes "BlackRock Vanguard Fund", 3/100⟩]
      = (1/20, 3/100)
    ∧ (parse_institutional_holdings
        [⟨strCodes "BlackRock Advisors", 1/20⟩, ⟨strCodes "BlackRock Vanguard Fund", 3/100⟩]).2
      ≠ 0 := by
  have h : parse_institutional_holdings
      [⟨strCodes "BlackRock Advisors", 1/20⟩, ⟨strCodes "BlackRock Vanguard Fund", 3/100⟩]
      = (1/20, 3/100) := by
    show parse_institutional_holdings_aux _ 0 0 = _
    rw [parse_institutional_holdings_aux, if_pos ⟨by decide, by norm_num⟩,
      parse_institutional_holdings_aux, if_neg, if_pos ⟨by decide, by norm_num⟩,
      parse_institutional_holdings_aux]
    intro hc
    exact absurd hc.2 (by norm_num)
  exact ⟨h, by rw [h]; norm_num⟩

/-- C9 amended: in scanner_pro.py parse_nasdaq_holdings a row containing a
BlackRock marker is classified BLACKROCK unconditionally (the Vanguard test
is in an elif on the name alone), so it contributes nothing to the VANGUARD
figure; in u2.py (and the u2_dual.py parsers) the BlackRock branch also
requires strictly improving the running BlackRock maximum, and when that
fails a dual-marker row is tested for — and can update — VANGUARD. -/
theorem C9_dual_marker (total_shares : ℚ) (pre post : List NasdaqRow) (r : NasdaqRow)
    (hbr : codesContain (strCodes "BLACKROCK") (pyUpper r.ownerName) = true
      ∨ codesContain (strCodes "BLACK ROCK") (pyUpper r.ownerName) = true) :
    classify_scanner_pro r.ownerName = HolderCategory.BLACKROCK
    ∧ (parse_nasdaq_holdings_pro total_shares (pre ++ r :: post)).2
        = (parse_nasdaq_holdings_pro total_shares (pre ++ post)).2
    ∧ ∀ (y : YahooRow) (ys : List YahooRow) (br vg : ℚ),
        codesContain (strCodes "blackrock") (pyLower y.holder) = true →
        ¬ br < y.pct →
        codesContain (strCodes "vanguard") (pyLower y.holder) = true →
        vg < y.pct →
        parse_institutional_holdings_aux (y :: ys) br vg
          = parse_institutional_holdings_aux ys br y.pct := by
  have hcls : classify_scanner_pro r.ownerName = HolderCategory.BLACKROCK :=
    (classify_scanner_pro_blackrock_iff r.ownerName).mpr hbr
  have hcat : categoryPcts total_shares HolderCategory.VANGUARD (pre ++ r :: post)
      = categoryPcts total_shares HolderCategory.VANGUARD (pre ++ post) := by
    simp only [categoryPcts, List.filterMap_append, List.filterMap_cons]
    cases hsh : r.sharesHeld with
    | none => simp [hsh]
    | some sh => simp [hsh, hcls]
  refine ⟨hcls, ?_, ?_⟩
  · show (parse_nasdaq_holdings_pro_aux total_shares (pre ++ r :: post) 0 0).2
      = (parse_nasdaq_holdings_pro_aux total_shares (pre ++ post) 0 0).2
    rw [parse_pro_aux_eq, parse_pro_aux_eq, hcat]
  · intro y ys br vg hy1 hy2 hy3 hy4
    rw [parse_institutional_holdings_aux, if_neg (fun hc => hy2 hc.2), if_pos ⟨hy3, hy4⟩]

/-- C9 witness: the amended statement at the dual-marker row BLACKROCK
VANGUARD FUND placed between two other rows, and at the u2 configuration
where the BlackRock maximum 0.05 blocks the BlackRock branch for a 0.03
row, which then updates VANGUARD. -/
theorem C9_dual_marker_witness :
    classify_scanner_pro (strCodes "BLACKROCK VANGUARD FUND") = HolderCategory.BLACKROCK
    ∧ (parse_nasdaq_holdings_pro 100
          ([⟨strCodes "Big Fund", some 10⟩] ++
            (⟨strCodes "BLACKROCK VANGUARD FUND", some 50⟩ : NasdaqRow) ::
              [⟨strCodes "Vanguard Group", some 25⟩])).2
        = (parse_nasdaq_holdings_pro 100
            ([⟨strCodes "Big Fund", some 10⟩] ++ [⟨strCodes "Vanguard Group", some 25⟩])).2
    ∧ ∀ (y : YahooRow) (ys : List YahooRow) (br vg : ℚ),
        codesContain (strCodes "blackrock") (pyLower y.holder) = true →
        ¬ br < y.pct →
        codesContain (strCodes "vanguard") (pyLower y.holder) = true →
        vg < y.pct →
        parse_institutional_holdings_aux (y :: ys) br vg
          = parse_institutional_holdings_aux ys br y.pct :=
  C9_dual_marker 100 [⟨strCodes "Big Fund", some 10⟩] [⟨strCodes "Vanguard Group", some 25⟩]
    ⟨strCodes "BLACKROCK VANGUARD FUND", some 50⟩ (Or.inl (by decide))

/-- C7: on an incremental run (new_stocks_only), no previously processed
ticker is scanned again, and the saved state is exactly the union of the
previous processed set with every ticker scanned this run — hence a
superset of the previous state. -/
theorem C7_incremental_state (tickers : List String) (processed : Finset String)
    (hinc : new_stocks_only tickers processed = true) :
    (∀ t ∈ tickers_to_scan tickers processed, t ∉ processed)
    ∧ all_processed_tickers tickers processed
        = processed ∪ (tickers_to_scan tickers processed).toFinset
    ∧ processed ⊆ all_processed_tickers tickers processed := by
  refine ⟨?_, rfl, Finset.subset_union_left⟩
  intro t ht
  have ht2 : t ∈ new_tickers tickers processed := by
    unfold tickers_to_scan at ht
    rwa [if_pos hinc] at ht
  have := (List.mem_filter.mp ht2).2
  simpa using this

/-- C7 witness: the incremental-run statement at the universe [A, B] with A
already processed: only B is scanned and the new state is the union. -/
theorem C7_incremental_state_witness :
    (∀ t ∈ tickers_to_scan ["A", "B"] {"A"}, t ∉ ({"A"} : Finset String))
    ∧ all_processed_tickers ["A", "B"] {"A"}
        = ({"A"} : Finset String) ∪ (tickers_to_scan ["A", "B"] {"A"}).toFinset
    ∧ ({"A"} : Finset String) ⊆ all_processed_tickers ["A", "B"] {"A"} :=
  C7_incremental_state ["A", "B"] {"A"} (by decide)

theorem rank_tier1 (s : Stock) (h : (calculate_ranking_score s).1 = 1) :
    (calculate_ranking_score s).2
      = RankScore.pair (-(s.blackrock_pct + s.vanguard_pct)) s.price := by
  simp only [calculate_ranking_score] at h ⊢
  split_ifs at h ⊢ <;> simp_all

theorem rank_ne1 (s : Stock) (h : (calculate_ranking_score s).1 ≠ 1) :
    (calculate_ranking_score s).2 = RankScore.single s.price := by
  simp only [calculate_ranking_score] at h ⊢
  split_ifs at h ⊢ <;> simp_all

theorem keyLe_true_iff (k1 k2 : Nat × RankScore) :
    keyLe k1 k2 = true ↔ k1.1 < k2.1 ∨ (k1.1 = k2.1 ∧ scoreLe k1.2 k2.2 = true) := by
  simp [keyLe]

theorem scoreLe_pair_iff (n1 p1 n2 p2 : ℚ) :
    scoreLe (RankScore.pair n1 p1) (RankScore.pair n2 p2) = true ↔
      (n1 < n2 ∨ (n1 = n2 ∧ p1 ≤ p2)) := by
  simp [scoreLe]

theorem scoreLe_single_iff (p1 p2 : ℚ) :
    scoreLe (RankScore.single p1) (RankScore.single p2) = true ↔ p1 ≤ p2 := by
  simp [scoreLe]

instance : IsTotal Stock stockLe := by
  constructor
  intro a b
  unfold stockLe
  rw [keyLe_true_iff, keyLe_true_iff]
  rcases Nat.lt_trichotomy (calculate_ranking_score a).1 (calculate_ranking_score b).1
    with h | h | h
  · exact Or.inl (Or.inl h)
  · by_cases h1 : (calculate_ranking_score a).1 = 1
    · have hb1 : (calculate_ranking_score b).1 = 1 := h ▸ h1
      rw [rank_tier1 a h1, rank_tier1 b hb1, scoreLe_pair_iff, scoreLe_pair_iff]
      rcases lt_trichotomy (-(a.blackrock_pct + a.vanguard_pct))
          (-(b.blackrock_pct + b.vanguard_pct)) with hn | hn | hn
      · exact Or.inl (Or.inr ⟨h, Or.inl hn⟩)
      · rcases le_total a.price b.price with hp | hp
        · exact Or.inl (Or.inr ⟨h, Or.inr ⟨hn, hp⟩⟩)
        · exact Or.inr (Or.inr ⟨h.symm, Or.inr ⟨hn.symm, hp⟩⟩)
      · exact Or.inr (Or.inr ⟨h.symm, Or.inl hn⟩)
    · have hb1 : (calculate_ranking_score b).1 ≠ 1 := fun hb => h1 (h.trans hb)
      rw [rank_ne1 a h1, rank_ne1 b hb1, scoreLe_single_iff, scoreLe_single_iff]
      rcases le_total a.price b.price with hp | hp
      · exact Or.inl (Or.inr ⟨h, hp⟩)
      · exact Or.inr (Or.inr ⟨h.symm, hp⟩)
  · exact Or.inr (Or.inl h)

instance : IsTrans Stock stockLe := by
  constructor
  intro a b c hab hbc
  unfold stockLe at hab hbc ⊢
  rw [keyLe_true_iff] at hab hbc ⊢
  rcases hab with hab | ⟨hab1, hab2⟩
  · rcases hbc with hbc | ⟨hbc1, _⟩
    · exact Or.inl (hab.trans hbc)
    · exact Or.inl (hbc1 ▸ hab)
  · rcases hbc with hbc | ⟨hbc1, hbc2⟩
    · exact Or.inl (hab1 ▸ hbc)
    · refine Or.inr ⟨hab1.trans hbc1, ?_⟩
      by_cases h1 : (calculate_ranking_score a).1 = 1
      · have hb1 : (calculate_ranking_score b).1 = 1 := hab1 ▸ h1
        have hc1 : (calculate_ranking_score c).1 = 1 := hbc1 ▸ hb1
        rw [rank_tier1 a h1, rank_tier1 b hb1, scoreLe_pair_iff] at hab2
        rw [rank_tier1 b hb1, rank_tier1 c hc1, scoreLe_pair_iff] at hbc2
        rw [rank_tier1 a h1, rank_tier1 c hc1, scoreLe_pair_iff]
        rcases hab2 with hn | ⟨hn, hp⟩ <;> rcases hbc2 with hm | ⟨hm, hq⟩
        · exact Or.inl (hn.trans hm)
        · exact Or.inl (hm ▸ hn)
        · exact Or.inl (hn ▸ hm)
        · exact Or.inr ⟨hn.trans hm, hp.trans hq⟩
      · have hb1 : (calculate_ranking_score b).1 ≠ 1 := fun hb => h1 (hab1.trans hb)
        have hc1 : (calculate_ranking_score c).1 ≠ 1 := fun hc => hb1 (hbc1.trans hc)
        rw [rank_ne1 a h1, rank_ne1 b hb1, scoreLe_single_iff] at hab2
        rw [rank_ne1 b hb1, rank_ne1 c hc1, scoreLe_single_iff] at hbc2
        rw [rank_ne1 a h1, rank_ne1 c hc1, scoreLe_single_iff]
        exact hab2.trans hbc2

/-- Spec-side ordering of two stocks as C3 states it: a lower tier number
first when tiers differ; within Tier 1, larger combined percentage first
with price as tie-break; within a shared Tier 2 or 3, lower price first. -/
def ranked_before (a b : Stock) : Prop :=
  ((calculate_ranking_score a).1 ≠ (calculate_ranking_score b).1 →
    (calculate_ranking_score a).1 < (calculate_ranking_score b).1)
  ∧ ((calculate_ranking_score a).1 = 1 → (calculate_ranking_score b).1 = 1 →
      b.blackrock_pct + b.vanguard_pct ≤ a.blackrock_pct + a.vanguard_pct
      ∧ (a.blackrock_pct + a.vanguard_pct = b.blackrock_pct + b.vanguard_pct →
          a.price ≤ b.price))
  ∧ ((calculate_ranking_score a).1 = (calculate_ranking_score b).1 →
      (calculate_ranking_score a).1 ≠ 1 → a.price ≤ b.price)

theorem stockLe_ranked_before {a b : Stock} (h : stockLe a b) : ranked_before a b := by
  unfold stockLe at h
  rw [keyLe_true_iff] at h
  unfold ranked_before
  rcases h with h | ⟨h1, h2⟩
  · refine ⟨fun _ => h, ?_, ?_⟩
    · intro ha hb
      exact absurd (ha.trans hb.symm) (Nat.ne_of_lt h)
    · intro he _
      exact absurd he (Nat.ne_of_lt h)
  · refine ⟨fun hne => absurd h1 hne, ?_, ?_⟩
    · intro ha hb
      rw [rank_tier1 a ha, rank_tier1 b hb, scoreLe_pair_iff] at h2
      constructor
      · rcases h2 with hlt | ⟨heq, _⟩
        · linarith
        · linarith
      · intro hceq
        rcases h2 with hlt | ⟨_, hp⟩
        · exact absurd hlt (by rw [hceq]; exact lt_irrefl _)
        · exact hp
    · intro he hne1
      have hb1 : (calculate_ranking_score b).1 ≠ 1 := fun hb => hne1 (he.trans hb)
      rw [rank_ne1 a hne1, rank_ne1 b hb1, scoreLe_single_iff] at h2
      exact h2

/-- C3: the sequence produced by display_results is sorted so that: for two
stocks of different tiers the lower tier number comes first; when both are
Tier 1, the larger combined BLACKROCK plus VANGUARD percentage comes first
and ties are broken by lower price; when both share Tier 2 or Tier 3, the
lower price comes first. -/
theorem C3_sorted_output (l : List Stock) :
    (display_results_sort l).Pairwise ranked_before :=
  List.Pairwise.imp (fun h => stockLe_ranked_before h)
    (List.sorted_insertionSort stockLe l)

/-- C10: the composite key comparison is well-defined despite heterogeneous
scores — stocks with equal tiers always carry scores of the same shape, a
stock is Tier 1 exactly when its score is a pair, and when tiers differ the
key comparison never consults the score components (replacing them changes
nothing), so a pair is never compared against a bare price. -/
theorem C10_no_mixed_comparison (a b : Stock) :
    ((calculate_ranking_score a).1 = (calculate_ranking_score b).1 →
      sameShape (calculate_ranking_score a).2 (calculate_ranking_score b).2)
    ∧ ((calculate_ranking_score a).1 = 1 ↔
        ∃ n p, (calculate_ranking_score a).2 = RankScore.pair n p)
    ∧ ∀ (k1 k2 : Nat × RankScore) (s1 s2 : RankScore),
        k1.1 ≠ k2.1 → keyLe k1 k2 = keyLe (k1.1, s1) (k2.1, s2) := by
  refine ⟨?_, ⟨?_, ?_⟩, ?_⟩
  · intro h
    by_cases h1 : (calculate_ranking_score a).1 = 1
    · rw [rank_tier1 a h1, rank_tier1 b (h ▸ h1)]
      trivial
    · rw [rank_ne1 a h1, rank_ne1 b (fun hb => h1 (h.trans hb))]
      trivial
  · intro h1
    exact ⟨_, _, rank_tier1 a h1⟩
  · rintro ⟨n, p, hp⟩
    by_contra h1
    rw [rank_ne1 a h1] at hp
    exact RankScore.noConfusion hp
  · intro k1 k2 s1 s2 hne
    simp [keyLe, hne]

/-- C10 witness: two concrete Tier-1 stocks have same-shape (pair) scores,
and a concrete mixed-tier key comparison is unchanged when the score
components are swapped out. -/
theorem C10_no_mixed_comparison_witness :
    sameShape (calculate_ranking_score ⟨strCodes "AAA", 1/2, 5, 5⟩).2
        (calculate_ranking_score ⟨strCodes "CCC", 1/4, 6, 7⟩).2
    ∧ keyLe (1, RankScore.single 0) (2, RankScore.pair 3 3)
        = keyLe ((1, RankScore.single 0).1, RankScore.pair 9 9)
            ((2, RankScore.pair 3 3).1, RankScore.single 8) :=
  ⟨(C10_no_mixed_comparison ⟨strCodes "AAA", 1/2, 5, 5⟩ ⟨strCodes "CCC", 1/4, 6, 7⟩).1
      (by norm_num [calculate_ranking_score]),
    (C10_no_mixed_comparison ⟨strCodes "AAA", 1/2, 5, 5⟩ ⟨strCodes "CCC", 1/4, 6, 7⟩).2.2
      (1, RankScore.single 0) (2, RankScore.pair 3 3)
      (RankScore.pair 9 9) (RankScore.single 8) (by decide)⟩

end PennyWhales
